import Mathlib

/-!
Verification of the game-state engine of `game_multiplayer` (src/main.py),
an in-memory multiplayer trivia/bidding server ("Awantura o Kasę").

The Python module keeps all state in module-level globals (PLAYERS, BIDS,
CHAT, POT, PHASE, ...).  We embed that state as one record `GameState` and
every handler or helper as a pure function `GameState → ... → GameState`
(handlers additionally return their HTTP response, with `Except HErr`
standing for `raise HTTPException`).  Python dicts preserve insertion
order, so `PLAYERS`/`BIDS` become association lists keyed by player id.
Wall-clock values (`time.time()`) are passed in explicitly as an integer
`now` parameter; only their ordering and differences matter to the code.
Randomness (`uuid.uuid4`, `random.randint`, `random.sample`) is passed in
as explicit arguments.
-/

/-- MODELE DANYCH: `class Player(BaseModel)` of src/main.py. -/
structure Player where
  id : String
  name : String
  money : Int
  is_admin : Bool
  is_observer : Bool
  last_heartbeat : Int
deriving Repr, DecidableEq

/-- `class BidInfo(BaseModel)` of src/main.py. -/
structure BidInfo where
  player_id : String
  amount : Int
  is_all_in : Bool
  ts : Int
deriving Repr, DecidableEq

/-- `class ChatMessage(BaseModel)` of src/main.py. -/
structure ChatMessage where
  player : String
  message : String
  timestamp : Int
deriving Repr, DecidableEq

/-- One parsed question record as produced by `_load_question_set`
(a dict with keys "question", "correct", "answers"). -/
structure Question where
  question : String
  correct : String
  answers : List String
deriving Repr, DecidableEq

/-- `class PlayerState(BaseModel)` of src/main.py (element of /state). -/
structure PlayerState where
  id : String
  name : String
  money : Int
  bid : Int
  is_all_in : Bool
  is_admin : Bool
deriving Repr, DecidableEq

/-- `class StateResponse(BaseModel)` of src/main.py. -/
structure StateResponse where
  round_id : Int
  phase : String
  pot : Int
  time_left : Int
  answering_player_id : Option String
  current_set : Option String
  current_question_index : Int
  current_question_text : Option String
  players : List PlayerState
  chat : List ChatMessage
deriving Repr, DecidableEq

/-- The module-level mutable globals of src/main.py, gathered in one record. -/
structure GameState where
  players : List Player
  bids : List BidInfo
  chat : List ChatMessage
  round_id : Int
  phase : String
  round_start_ts : Int
  pot : Int
  answering_player_id : Option String
  questions : List Question
  current_set : Option String
  current_q_index : Int
  current_answer_text : Option String
  current_answer_player_id : Option String
  answer_submitted_ts : Int
deriving Repr, DecidableEq

/-- `raise HTTPException(status_code=..., detail=...)`. -/
structure HErr where
  status_code : Nat
  detail : String
deriving Repr, DecidableEq

def BIDDING_DURATION : Int := 20
def HEARTBEAT_TIMEOUT : Int := 60
def MAX_ACTIVE_PLAYERS : Nat := 20

/-- The state of the module as initialised at load time: empty
registries, PHASE "idle", ROUND_ID 0, POT 0, CURRENT_Q_INDEX -1, and
ROUND_START_TS (a wall-clock reading) modelled as 0. -/
def initialState : GameState :=
  { players := [], bids := [], chat := [], round_id := 0, phase := "idle",
    round_start_ts := 0, pot := 0, answering_player_id := none,
    questions := [], current_set := none, current_q_index := -1,
    current_answer_text := none, current_answer_player_id := none,
    answer_submitted_ts := 0 }

/-- `PLAYERS[pid]` / `pid in PLAERS` lookup (dict keyed by unique id). -/
def findPlayer (s : GameState) (pid : String) : Option Player :=
  s.players.find? (fun p => p.id = pid)

/-- `BIDS.get(pid)` lookup. -/
def findBid (bids : List BidInfo) (pid : String) : Option BidInfo :=
  bids.find? (fun b => b.player_id = pid)

def defaultPlayer : Player := ⟨"", "", 0, false, false, 0⟩

def defaultQuestion : Question := ⟨"", "", []⟩

/-- Python truthiness of an `Optional[str]` (None and "" are falsy). -/
def truthyS : Option String → Bool
  | none => false
  | some t => t ≠ ""

/-- `f"{CURRENT_SET}"` — Python prints None as "None". -/
def optSetStr : Option String → String
  | none => "None"
  | some x => x

def botMsg (m : String) (now : Int) : ChatMessage := ⟨"BOT", m, now⟩

/-- `CHAT[-30:]` etc.: the last `n` elements of a list. -/
def lastN (n : Nat) (l : List α) : List α := l.drop (l.length - n)

/-! ### `_normalize_answer` and `_similarity` (src/main.py lines 157-182)

`_similarity` delegates to the standard library's
`difflib.SequenceMatcher(None, na, nb).ratio()`.  We embed that algorithm
(the no-junk case; `autojunk` only affects sequences of length ≥ 200,
which never arise in the claims checked here).  Python computes
`int(ratio * 100)` in floating point; we compute the exact rational
`(200*M) / (la+lb)` with floor division, which agrees with the float
computation at every value used in this file. -/

/-- Python `str.lower()` restricted to the alphabets that actually occur:
ASCII plus the Polish/German letters of the substitution table. -/
def pyLower (c : Char) : Char :=
  if c = 'Ó' then 'ó' else if c = 'Ł' then 'ł' else if c = 'Ż' then 'ż'
  else if c = 'Ź' then 'ź' else if c = 'Ć' then 'ć' else if c = 'Ń' then 'ń'
  else if c = 'Ś' then 'ś' else if c = 'Ą' then 'ą' else if c = 'Ę' then 'ę'
  else if c = 'Ü' then 'ü' else c.toLower

/-- The diacritic substitution table of `_normalize_answer`. -/
def replDiacritic (c : Char) : Char :=
  if c = 'ó' then 'o' else if c = 'ł' then 'l' else if c = 'ż' then 'z'
  else if c = 'ź' then 'z' else if c = 'ć' then 'c' else if c = 'ń' then 'n'
  else if c = 'ś' then 's' else if c = 'ą' then 'a' else if c = 'ę' then 'e'
  else if c = 'ü' then 'u' else c

/-- `_normalize_answer`: lower-case, strip, substitute diacritics, replace
"u" by "o", and drop all whitespace ("".join(text.split()); `strip` is
subsumed by the final whitespace removal, and the substitutions neither
produce nor consume whitespace). -/
def _normalize_answer (text : String) : String :=
  let cs := text.toList.map pyLower
  let cs := cs.map replDiacritic
  let cs := cs.map (fun c => if c = 'u' then 'o' else c)
  String.mk (cs.filter (fun c => ¬ c.isWhitespace))

/-- `[lo, hi)` as a list of naturals. -/
def natRange (lo hi : Nat) : List Nat := (List.range hi).drop lo

def charAt (l : List Char) (i : Nat) : Char := l.getD i ' '

/-- `difflib.SequenceMatcher.find_longest_match` (no junk): returns
`(i, j, size)` of the longest matching block of `a[alo:ahi]` and
`b[blo:bhi]`, earliest in `a` then in `b` on ties.  The dynamic program
mirrors CPython's `j2len` recurrence; the junk/popular extension loops of
CPython are no-ops when there is no junk. -/
def find_longest_match (a b : List Char) (alo ahi blo bhi : Nat) :
    Nat × Nat × Nat :=
  let step := fun (st : (Nat → Nat) × (Nat × Nat × Nat)) (i : Nat) =>
    let j2len := st.1
    let hits := (natRange blo bhi).filter (fun j => charAt b j = charAt a i)
    let klen := fun (j : Nat) => (if j = 0 then 0 else j2len (j - 1)) + 1
    let best := hits.foldl
      (fun (bst : Nat × Nat × Nat) j =>
        if klen j > bst.2.2 then (i + 1 - klen j, j + 1 - klen j, klen j)
        else bst) st.2
    (fun j => if (blo ≤ j ∧ j < bhi) ∧ charAt b j = charAt a i
              then klen j else 0,
     best)
  ((natRange alo ahi).foldl step (fun _ => 0, (alo, blo, 0))).2

/-- `get_matching_blocks`, reduced to the total matched size `M` (the only
quantity `ratio()` needs; sorting/merging of blocks does not change the
sum, nor does the order in which disjoint regions are popped from the
queue).  `fuel` bounds the iteration count; `2*(|a|+|b|)+4` always
suffices since every block found consumes at least one matched element. -/
def matchedSizeGo (a b : List Char) :
    Nat → List (Nat × Nat × Nat × Nat) → Nat → Nat
  | 0, _, acc => acc
  | _ + 1, [], acc => acc
  | fuel + 1, (alo, ahi, blo, bhi) :: rest, acc =>
    let r := find_longest_match a b alo ahi blo bhi
    let i := r.1
    let j := r.2.1
    let k := r.2.2
    if k = 0 then matchedSizeGo a b fuel rest acc
    else
      matchedSizeGo a b fuel
        ((if alo < i ∧ blo < j then [(alo, i, blo, j)] else []) ++
         (if i + k < ahi ∧ j + k < bhi then [(i + k, ahi, j + k, bhi)] else []) ++
         rest)
        (acc + k)

def matchedSize (a b : List Char) : Nat :=
  matchedSizeGo a b (2 * (a.length + b.length) + 4)
    [(0, a.length, 0, b.length)] 0

/-- `int(SequenceMatcher(None, na, nb).ratio() * 100)` as an exact
rational computation: `ratio = 2*M/T` with `T = |na| + |nb|`. -/
def ratio100 (a b : List Char) : Nat :=
  (200 * matchedSize a b) / (a.length + b.length)

/-- `_similarity` of src/main.py. -/
def _similarity (a b : String) : Nat :=
  let na := _normalize_answer a
  let nb := _normalize_answer b
  if na = "" ∧ nb = "" then 100
  else ratio100 na.toList nb.toList

example : _similarity "xxx" "yyy" = 0 := by decide
example : _similarity "Paryż" "paryz" = 100 := by decide
example : _similarity "kot" "kos" = 66 := by decide

/-! ### State-machine helpers (src/main.py lines 185-554) -/

/-- `_recompute_pot`: `POT = sum(b.amount for b in BIDS.values())`. -/
def _recompute_pot (s : GameState) : GameState :=
  { s with pot := (s.bids.map (fun b => b.amount)).sum }

/-- `_time_left`: seconds remaining in the bidding phase. -/
def _time_left (s : GameState) (now : Int) : Int :=
  if s.phase ≠ "bidding" then 0
  else max 0 (BIDDING_DURATION - (now - s.round_start_ts))

/-- The tail of `_cleanup_inactive_players` (lines 274-284): if any
players remain but none is an admin, promote `next(iter(PLAYERS))` — the
first player in insertion order. -/
def promoteFirstAdmin (s : GameState) (now : Int) : GameState :=
  match s.players with
  | [] => s
  | p :: rest =>
    if (p :: rest).any (fun q => q.is_admin) then s
    else { s with players := { p with is_admin := true } :: rest,
                  chat := s.chat ++
                    [botMsg ("Gracz " ++ p.name ++ " został nowym ADMINEM.") now] }

/-- `_cleanup_inactive_players` (lines 251-284): evict every player whose
heartbeat is older than HEARTBEAT_TIMEOUT, drop their bids, post one BOT
message per eviction, recompute the pot, and promote the first remaining
player to admin if no admin is left.  Dict keys are unique, so popping the
collected `removed_ids` is a filter. -/
def _cleanup_inactive_players (s : GameState) (now : Int) : GameState :=
  let removed := s.players.filter (fun p => HEARTBEAT_TIMEOUT < now - p.last_heartbeat)
  let kept := s.players.filter (fun p => ¬ HEARTBEAT_TIMEOUT < now - p.last_heartbeat)
  let bids1 := s.bids.filter (fun b => ¬ removed.any (fun p => p.id = b.player_id))
  let chat1 := s.chat ++ removed.map (fun p =>
    botMsg ("Gracz " ++ p.name ++ " został odłączony (brak heartbeat).") now)
  promoteFirstAdmin (_recompute_pot { s with players := kept, bids := bids1, chat := chat1 }) now

/-- The winner-selection loop of `_finish_bidding` (lines 310-318):
replace the running best when the amount is strictly greater, or equal
with a strictly earlier timestamp. -/
def betterBid (best bid : BidInfo) : BidInfo :=
  if bid.amount > best.amount then bid
  else if bid.amount = best.amount ∧ bid.ts < best.ts then bid
  else best

def selectBest : List BidInfo → Option BidInfo
  | [] => none
  | b :: rest => some (rest.foldl betterBid b)

/-- `_finish_bidding` (lines 287-342): resolve the auction and move to the
answering phase.  (The unused `trigger` argument of the source is
omitted.) -/
def _finish_bidding (s : GameState) (now : Int) : GameState :=
  if s.phase ≠ "bidding" then s
  else if s.bids = [] then
    { s with answering_player_id := none, phase := "answering",
             chat := s.chat ++
               [botMsg "Brak ofert w licytacji – brak osoby odpowiadającej." now] }
  else
    let best := (selectBest s.bids).getD ⟨"", 0, false, 0⟩
    let s1 := { s with answering_player_id := some best.player_id,
                       phase := "answering" }
    let s2 :=
      match findPlayer s1 best.player_id with
      | some winner =>
        { s1 with chat := s1.chat ++
            [botMsg ("Gracz " ++ winner.name ++ " zwyciężył licytację z kwotą " ++
                     toString best.amount ++ " zł.") now] }
      | none => s1
    if 0 ≤ s2.current_q_index ∧ s2.current_q_index < (s2.questions.length : Int) then
      let q := s2.questions.getD s2.current_q_index.toNat defaultQuestion
      { s2 with chat := s2.chat ++ [botMsg ("PYTANIE: " ++ q.question) now] }
    else s2

/-- `_auto_finish_bidding_if_needed` (lines 345-347). -/
def _auto_finish_bidding_if_needed (s : GameState) (now : Int) : GameState :=
  if s.phase = "bidding" ∧ _time_left s now ≤ 0 then _finish_bidding s now else s

/-- `_end_game_no_more_questions` (lines 350-375): finish the game and
announce the richest non-observer (Python `max` keeps the first maximal
element). -/
def _end_game_no_more_questions (s : GameState) (now : Int) : GameState :=
  let s1 := { s with phase := "finished" }
  if s1.players = [] then
    { s1 with chat := s1.chat ++ [botMsg "Gra zakończona – brak graczy." now] }
  else
    let active0 := s1.players.filter (fun p => ¬ p.is_observer)
    let active := if active0 = [] then s1.players else active0
    let winner := active.foldl
      (fun w q => if q.money > w.money then q else w) (active.headD defaultPlayer)
    { s1 with chat := s1.chat ++
        [botMsg ("Gra zakończona – zwycięża " ++ winner.name ++ " z kwotą " ++
                 toString winner.money ++ " zł.") now] }

/-- `_end_game_insufficient_players` (lines 378-398): finish the game; if
exactly one non-observer holds ≥ 500, they collect the whole pot. -/
def _end_game_insufficient_players (s : GameState) (now : Int) : GameState :=
  let s1 := { s with phase := "finished" }
  let active : List Player :=
    s1.players.filter (fun p => !p.is_observer && decide (500 ≤ p.money))
  if active.length = 1 then
    let winner := active.headD defaultPlayer
    { s1 with
      players := s1.players.map (fun p =>
        if p.id = winner.id then { p with money := p.money + s1.pot } else p),
      pot := 0,
      chat := s1.chat ++
        [botMsg ("Gra zakończona – tylko " ++ winner.name ++ " ma min. 500 zł. " ++
                 "Zgarnia całą pulę " ++ toString s1.pot ++ " zł i zwycięża z kwotą " ++
                 toString (winner.money + s1.pot) ++ " zł.") now] }
  else
    { s1 with chat := s1.chat ++
        [botMsg "Gra zakończona – zbyt mało graczy z min. 500 zł, aby kontynuować." now] }

/-- The per-player loop body of `_start_new_bidding_round` (lines 426-441):
debit the 500 zł entry fee, record it as the opening bid, announce it. -/
def entryFeeStep (now : Int) (st : GameState) (p : Player) : GameState :=
  { st with
    players := st.players.map (fun q =>
      if q.id = p.id then { q with money := q.money - 500 } else q),
    bids := st.bids ++ [⟨p.id, 500, false, now⟩],
    chat := st.chat ++ [⟨p.name, "500 zł (wpisowe do rundy)", now⟩] }

/-- `_start_new_bidding_round` (lines 401-456). -/
def _start_new_bidding_round (s : GameState) (now : Int) : GameState :=
  if s.questions = [] ∨ s.current_q_index < 0 ∨
     (s.questions.length : Int) ≤ s.current_q_index then
    _end_game_no_more_questions s now
  else
    let eligible := s.players.filter (fun p => !p.is_observer && decide (500 ≤ p.money))
    if eligible.length < 2 then _end_game_insufficient_players s now
    else
      let s1 := { s with round_id := s.round_id + 1, phase := "bidding",
                         round_start_ts := now, bids := [] }
      let s2 := eligible.foldl (entryFeeStep now) s1
      let s3 := _recompute_pot s2
      { s3 with chat := s3.chat ++
          [botMsg ("Rozpoczynamy licytację do pytania " ++
                   toString (s3.current_q_index + 1) ++ "/" ++
                   toString s3.questions.length ++ " (Zestaw " ++
                   optSetStr s3.current_set ++ "). Czas: 20 s!") now] }

/-- `_start_next_question_or_end_game` (lines 459-483). -/
def _start_next_question_or_end_game (s : GameState) (now : Int) : GameState :=
  let s1 := { s with current_answer_text := none,
                     current_answer_player_id := none,
                     answer_submitted_ts := 0 }
  if s1.questions = [] then
    { s1 with chat := s1.chat ++
        [botMsg "Brak pytań – gra nie może się rozpocząć." now] }
  else if (s1.questions.length : Int) ≤ s1.current_q_index + 1 then
    _end_game_no_more_questions s1 now
  else
    _start_new_bidding_round { s1 with current_q_index := s1.current_q_index + 1 } now

/-- `_auto_finalize_discussion_if_needed` (lines 486-542): 20 s after the
answer was submitted, judge it by `_similarity ≥ 80`, pay out or roll
over, and move on to the next round. -/
def _auto_finalize_discussion_if_needed (s : GameState) (now : Int) : GameState :=
  if s.phase ≠ "discussion" then s
  else if ¬ truthyS s.current_answer_text ∨ ¬ truthyS s.current_answer_player_id then s
  else if now - s.answer_submitted_ts < 20 then s
  else
    let inRange := 0 ≤ s.current_q_index ∧ s.current_q_index < (s.questions.length : Int)
    let correct :=
      if inRange then (s.questions.getD s.current_q_index.toNat defaultQuestion).correct
      else "brak danych"
    let is_good : Bool :=
      if inRange then 80 ≤ _similarity (s.current_answer_text.getD "") correct
      else false
    let apid := s.current_answer_player_id.getD ""
    let winner := findPlayer s apid
    let s1 : GameState :=
      match winner with
      | some w =>
        if is_good then
          { s with
            players := s.players.map (fun p =>
              if p.id = w.id then { p with money := p.money + s.pot } else p),
            chat := s.chat ++
              [botMsg ("DOBRA odpowiedź! " ++ w.name ++ " zgarnia z puli " ++
                       toString s.pot ++ " zł. Poprawna odpowiedź: " ++ correct) now],
            pot := 0 }
        else
          { s with chat := s.chat ++
              [botMsg ("ZŁA odpowiedź! Pula " ++ toString s.pot ++
                       " zł przechodzi do kolejnej rundy. Poprawna odpowiedź: " ++
                       correct) now] }
      | none =>
        { s with chat := s.chat ++
            [botMsg ("ZŁA odpowiedź! Pula " ++ toString s.pot ++
                     " zł przechodzi do kolejnej rundy. Poprawna odpowiedź: " ++
                     correct) now] }
    _start_next_question_or_end_game { s1 with phase := "idle" } now

/-- `_auto_advance_game_state` (lines 545-554): the lazy catch-up step run
at the top of `/state` and `/bid`. -/
def _auto_advance_game_state (s : GameState) (now : Int) : GameState :=
  _cleanup_inactive_players
    (_auto_finalize_discussion_if_needed
      (_auto_finish_bidding_if_needed s now) now) now

/-! ### Endpoint handlers (src/main.py lines 568-1041)

Each handler returns the possibly-mutated state together with its HTTP
response.  In Python a `raise HTTPException` aborts the handler but keeps
any global mutation already performed, so errors are returned alongside
the state rather than rolling it back. -/

/-- Response of POST /bid. -/
inductive BidResp where
  | norm (pot : Int)
  | allin (pot : Int) (phase : String) (answering_player_id : Option String)
deriving Repr, DecidableEq

/-- Response of POST /finish_bidding. -/
structure FinishResp where
  phase : String
  answering_player_id : Option String
  pot : Int
deriving Repr, DecidableEq

/-- Response of POST /hint. -/
structure HintResp where
  pot : Int
  kind : String
deriving Repr, DecidableEq

def notFoundErr : HErr := ⟨404, "Nie ma takiego gracza."⟩

def invalidPhaseBidErr : HErr := ⟨400, "Ta runda nie jest w fazie licytacji."⟩

/-- `register_player` (lines 568-624).  `player_id` stands for the fresh
`uuid.uuid4()` draw. -/
def register_player (s : GameState) (now : Int) (player_id name : String) :
    GameState × Player :=
  let is_admin := s.players = []
  let is_observer := MAX_ACTIVE_PLAYERS ≤ s.players.length
  let player : Player := ⟨player_id, name, 10000, is_admin, is_observer, now⟩
  let players1 :=
    if s.players.any (fun p => p.id = player_id) then
      s.players.map (fun p => if p.id = player_id then player else p)
    else s.players ++ [player]
  let joinMsg :=
    if is_admin then "Gracz " ++ name ++ " dołączył jako ADMIN."
    else "Gracz " ++ name ++ " dołączył do gry."
  let s1 := { s with players := players1, chat := s.chat ++ [botMsg joinMsg now] }
  let active : List Player := s1.players.filter (fun p => !p.is_observer)
  let s2 :=
    if 2 ≤ active.length then
      { s1 with chat := s1.chat ++
          [botMsg ("Dołączyło co najmniej 2 graczy – ADMIN może wybrać zestaw " ++
                   "pytań wpisując numer 01–50.") now] }
    else s1
  (s2, player)

/-- `place_bid` (lines 712-820), POST /bid. -/
def place_bid (s : GameState) (now : Int) (player_id kind : String) :
    GameState × Except HErr BidResp :=
  if ¬ s.players.any (fun p => p.id = player_id) then (s, .error notFoundErr)
  else
    let s := _auto_advance_game_state s now
    if s.phase ≠ "bidding" then (s, .error invalidPhaseBidErr)
    else
      match findPlayer s player_id with
      | none =>
        -- the catch-up evicted the caller: `PLAYERS[req.player_id]` raises
        -- KeyError, surfaced by FastAPI as a 500
        (s, .error ⟨500, "Internal Server Error"⟩)
      | some player =>
        if player.is_observer then
          (s, .error ⟨400, "Obserwator nie może licytować."⟩)
        else if kind = "normal" then
          if player.money < 100 then
            (s, .error ⟨400, "Za mało kasy na licytację +100."⟩)
          else
            let players1 := s.players.map (fun p =>
              if p.id = player_id then { p with money := p.money - 100 } else p)
            let bids1 :=
              if (findBid s.bids player_id).isSome then
                s.bids.map (fun b =>
                  if b.player_id = player_id then
                    { b with amount := b.amount + 100, ts := now }
                  else b)
              else s.bids ++ [⟨player_id, 100, false, now⟩]
            let s1 := _recompute_pot { s with players := players1, bids := bids1 }
            let total := ((findBid s1.bids player_id).getD ⟨"", 0, false, 0⟩).amount
            let s2 := { s1 with chat := s1.chat ++
              [⟨player.name, toString total ++ " zł (licytacja)", now⟩] }
            (s2, .ok (.norm s2.pot))
        else if kind = "allin" then
          if player.money ≤ 0 then
            (s, .error ⟨400, "Nie możesz iść VA BANQUE z 0 zł."⟩)
          else
            let add_amount := player.money
            let players1 := s.players.map (fun p =>
              if p.id = player_id then { p with money := 0 } else p)
            let bids1 :=
              if (findBid s.bids player_id).isSome then
                s.bids.map (fun b =>
                  if b.player_id = player_id then
                    { b with amount := b.amount + add_amount, is_all_in := true,
                             ts := now }
                  else b)
              else s.bids ++ [⟨player_id, add_amount, true, now⟩]
            let s1 := _recompute_pot { s with players := players1, bids := bids1 }
            let total := ((findBid s1.bids player_id).getD ⟨"", 0, false, 0⟩).amount
            let s2 := { s1 with chat := s1.chat ++
              [⟨player.name, toString total ++ " zł (VA BANQUE!)", now⟩] }
            let s3 := _finish_bidding s2 now
            (s3, .ok (.allin s3.pot s3.phase s3.answering_player_id))
        else
          (s, .error ⟨400, "Nieznany rodzaj licytacji."⟩)

/-- `finish_bidding` (lines 823-846), POST /finish_bidding: admin-only
manual resolution.  The admin check raises before the catch-up runs. -/
def finish_bidding (s : GameState) (now : Int) (player_id : String) :
    GameState × Except HErr FinishResp :=
  match findPlayer s player_id with
  | none => (s, .error notFoundErr)
  | some player =>
    if ¬ player.is_admin then
      (s, .error ⟨403, "Tylko ADMIN może zakończyć licytację."⟩)
    else
      let s1 := _auto_advance_game_state s now
      let s2 := _finish_bidding s1 now
      (s2, .ok ⟨s2.phase, s2.answering_player_id, s2.pot⟩)

/-- `buy_hint` (lines 900-983), POST /hint.  `cost` stands for the
`random.randint` draw (range [1000,3000] for "abcd", [500,2500] for
"5050") and `pick` for `random.sample(wrong, 2)`; both are external
randomness.  The cost draw happens inside the kind dispatch, so an
unknown kind is rejected before any cost is considered. -/
def buy_hint (s : GameState) (now : Int) (player_id kind : String) (cost : Int)
    (pick : List String → List String) : GameState × Except HErr HintResp :=
  if ¬ s.players.any (fun p => p.id = player_id) then (s, .error notFoundErr)
  else if s.phase ≠ "answering" ∧ s.phase ≠ "discussion" then
    (s, .error ⟨400, "Podpowiedzi można używać tylko podczas odpowiadania na pytanie."⟩)
  else if s.answering_player_id ≠ some player_id then
    (s, .error ⟨403, "Tylko zwycięzca licytacji może kupić podpowiedź."⟩)
  else if s.questions = [] ∨
          ¬ (0 ≤ s.current_q_index ∧ s.current_q_index < (s.questions.length : Int)) then
    (s, .error ⟨400, "Brak aktualnego pytania."⟩)
  else
    match findPlayer s player_id with
    | none => (s, .error ⟨500, "Internal Server Error"⟩)  -- unreachable: membership checked
    | some player =>
      let q := s.questions.getD s.current_q_index.toNat defaultQuestion
      if kind ≠ "abcd" ∧ kind ≠ "5050" then
        (s, .error ⟨400, "Nieznany rodzaj podpowiedzi."⟩)
      else if player.money < cost then
        (s, .error ⟨400, "Nie stać Cię na tę podpowiedź (koszt " ++ toString cost ++ " zł)."⟩)
      else
        let s1 : GameState := { s with
          players := s.players.map (fun p =>
            if p.id = player_id then { p with money := p.money - cost } else p),
          pot := s.pot + cost }
        let s2 :=
          if kind = "abcd" then
            { s1 with chat := s1.chat ++
                [botMsg (player.name ++ " kupuje podpowiedź ABCD za " ++
                         toString cost ++ " zł. Opcje odpowiedzi: " ++
                         String.intercalate ", " q.answers) now] }
          else
            let wrong := q.answers.filter (fun a => _similarity a q.correct < 90)
            let removed := if wrong.length ≤ 2 then wrong else pick wrong
            let remaining := q.answers.filter (fun a => ¬ removed.contains a)
            { s1 with chat := s1.chat ++
                [botMsg (player.name ++ " kupuje podpowiedź 50/50 za " ++
                         toString cost ++ " zł. Usuwam dwie błędne odpowiedzi: " ++
                         String.intercalate ", " removed ++ ". Pozostają: " ++
                         String.intercalate ", " remaining ++ ".") now] }
        (s2, .ok ⟨s2.pot, kind⟩)

/-- `next_round` (lines 986-993), POST /next_round: no body, no player id,
no phase check — unconditionally runs `_start_next_question_or_end_game`
and answers `{"status": "ok", "round_id": ROUND_ID}`. -/
def next_round (s : GameState) (now : Int) : GameState × Int :=
  let s1 := _start_next_question_or_end_game s now
  (s1, s1.round_id)

/-- `get_state` (lines 996-1041), GET /state: catch up, then snapshot. -/
def get_state (s : GameState) (now : Int) : GameState × StateResponse :=
  let s1 := _auto_advance_game_state s now
  let players_state := s1.players.map (fun p =>
    let bid_info := findBid s1.bids p.id
    PlayerState.mk p.id p.name p.money
      ((bid_info.map (fun b => b.amount)).getD 0)
      ((bid_info.map (fun b => b.is_all_in)).getD false)
      p.is_admin)
  let current_q_text :=
    if 0 ≤ s1.current_q_index ∧ s1.current_q_index < (s1.questions.length : Int) then
      some (s1.questions.getD s1.current_q_index.toNat defaultQuestion).question
    else none
  (s1, ⟨s1.round_id, s1.phase, s1.pot, _time_left s1 now, s1.answering_player_id,
        s1.current_set, s1.current_q_index, current_q_text, players_state,
        lastN 30 s1.chat⟩)

/-! ### Concrete states used by witnesses and counterexamples -/

def qYYY : Question := ⟨"Stolica Francji?", "yyy", ["pa", "pb", "pc", "pd"]⟩

def qTwo : Question := ⟨"Drugie pytanie?", "zzz", ["qa", "qb", "qc", "qd"]⟩

def pickFirst2 : List String → List String := fun l => l.take 2

/-- Discussion state holding a 1100 zł pot (600 + 500 in bids) with a
pending wrong answer ("xxx" vs correct "yyy"). -/
def c1State : GameState :=
  { players := [⟨"A", "Ala", 8900, true, false, 100⟩,
                ⟨"B", "Bob", 9000, false, false, 100⟩],
    bids := [⟨"A", 600, false, 10⟩, ⟨"B", 500, false, 11⟩],
    chat := [], round_id := 1, phase := "discussion", round_start_ts := 0,
    pot := 1100, answering_player_id := some "A",
    questions := [qYYY, qTwo], current_set := some "01", current_q_index := 0,
    current_answer_text := some "xxx", current_answer_player_id := some "A",
    answer_submitted_ts := 0 }

deriving instance DecidableEq for Except

/-- Answering-phase state: pot 1000 (bids 600 + 400), "A" resolved as the
answering player, both heartbeats fresh at time 100. -/
def c2State : GameState :=
  { players := [⟨"A", "Ala", 10000, true, false, 100⟩,
                ⟨"B", "Bob", 9000, false, false, 100⟩],
    bids := [⟨"A", 600, false, 10⟩, ⟨"B", 400, false, 11⟩],
    chat := [], round_id := 1, phase := "answering", round_start_ts := 0,
    pot := 1000, answering_player_id := some "A",
    questions := [qYYY], current_set := some "01", current_q_index := 0,
    current_answer_text := none, current_answer_player_id := none,
    answer_submitted_ts := 0 }

/-- Mid-bidding state at time 100 (deadline 120): "A" can go all-in;
"B"'s heartbeat (100) will be stale by time 200. -/
def c4State : GameState :=
  { players := [⟨"A", "Ala", 1000, true, false, 200⟩,
                ⟨"B", "Bob", 1000, false, false, 100⟩],
    bids := [⟨"A", 500, false, 100⟩, ⟨"B", 500, false, 100⟩],
    chat := [], round_id := 1, phase := "bidding", round_start_ts := 100,
    pot := 1000, answering_player_id := none,
    questions := [qYYY, qTwo], current_set := some "01", current_q_index := 0,
    current_answer_text := none, current_answer_player_id := none,
    answer_submitted_ts := 0 }

/-- Answering-phase state in which the answering player "A" (heartbeat 0)
is stale at time 100 while "B" (heartbeat 100) is live. -/
def c6State : GameState :=
  { players := [⟨"A", "Ala", 9300, false, false, 0⟩,
                ⟨"B", "Bob", 9500, true, false, 100⟩],
    bids := [⟨"A", 700, false, 5⟩],
    chat := [], round_id := 1, phase := "answering", round_start_ts := 0,
    pot := 700, answering_player_id := some "A",
    questions := [qYYY], current_set := some "01", current_q_index := 0,
    current_answer_text := none, current_answer_player_id := none,
    answer_submitted_ts := 0 }

/-- Bidding state with admin "A" and registered non-admin "B". -/
def c7State : GameState :=
  { players := [⟨"A", "Ala", 9300, true, false, 100⟩,
                ⟨"B", "Bob", 9500, false, false, 100⟩],
    bids := [⟨"A", 600, false, 5⟩, ⟨"B", 500, false, 6⟩],
    chat := [], round_id := 1, phase := "bidding", round_start_ts := 100,
    pot := 1100, answering_player_id := none,
    questions := [qYYY], current_set := some "01", current_q_index := 0,
    current_answer_text := none, current_answer_player_id := none,
    answer_submitted_ts := 0 }

/-- Answering-phase state where "A" (money 10000) won the auction. -/
def c9State : GameState :=
  { players := [⟨"A", "Ala", 10000, true, false, 100⟩,
                ⟨"B", "Bob", 9500, false, false, 100⟩],
    bids := [⟨"A", 500, false, 5⟩, ⟨"B", 500, false, 6⟩],
    chat := [], round_id := 1, phase := "answering", round_start_ts := 0,
    pot := 1000, answering_player_id := some "A",
    questions := [qYYY], current_set := some "01", current_q_index := 0,
    current_answer_text := none, current_answer_player_id := none,
    answer_submitted_ts := 0 }

/-- Mid-discussion state with a submitted answer but no question set
loaded — the round `/next_round` would have to abandon. -/
def c10State : GameState :=
  { players := [⟨"A", "Ala", 9300, true, false, 100⟩,
                ⟨"B", "Bob", 9500, false, false, 100⟩],
    bids := [⟨"A", 700, false, 5⟩],
    chat := [], round_id := 3, phase := "discussion", round_start_ts := 0,
    pot := 700, answering_player_id := some "A",
    questions := [], current_set := none, current_q_index := -1,
    current_answer_text := some "cos", current_answer_player_id := some "A",
    answer_submitted_ts := 50 }

/-! ### C1 — incorrect-verdict pot rollover -/

/-- C1: the claim states that after an incorrect verdict the pot is
carried over, so the next round starts with the carried amount plus the
new entry fees.  The code's own chat message announces exactly that
("Pula ... przechodzi do kolejnej rundy"), but `_start_new_bidding_round`
ends with `_recompute_pot`, which resets the pot to the sum of the new
500 zł entry bids.  Evaluated at a discussion state with a 1100 zł pot
and a wrong answer ("xxx" vs "yyy", similarity 0 < 80) between two
players: the next round's starting pot is 1000 (= 2 × 500), not
1100 + 1000 = 2100; neither wallet received a payout. -/
theorem c1_incorrect_verdict_pot_lost :
    (_auto_finalize_discussion_if_needed c1State 100).phase = "bidding" ∧
    (_auto_finalize_discussion_if_needed c1State 100).round_id = 2 ∧
    (_auto_finalize_discussion_if_needed c1State 100).current_q_index = 1 ∧
    (_auto_finalize_discussion_if_needed c1State 100).pot = 1000 ∧
    (findPlayer (_auto_finalize_discussion_if_needed c1State 100) "A").map
      (fun p => p.money) = some 8400 ∧
    (findPlayer (_auto_finalize_discussion_if_needed c1State 100) "B").map
      (fun p => p.money) = some 8500 := by decide

/-! ### C2 — pot conservation / hint costs -/

/-- C2: the claim states the pot always equals debits − payouts, and in
particular that a hint purchase permanently increases the pot by its
cost.  `buy_hint` does add the cost to the pot (as its docstring says),
but the very next observation of state runs the catch-up, whose
`_cleanup_inactive_players` unconditionally calls `_recompute_pot`,
resetting the pot to the sum of the current bids and erasing the hint
debit.  Evaluated: pot 1000, "A" buys an "abcd" hint for 1500 (a valid
`randint(1000, 3000)` draw); the pot momentarily becomes 2500, but the
next `get_state` reports 1000 again while "A"'s wallet stays debited at
8500 — 1500 zł have vanished from the books. -/
theorem c2_hint_cost_not_conserved :
    ((buy_hint c2State 100 "A" "abcd" 1500 pickFirst2).1.pot = 2500) ∧
    ((buy_hint c2State 100 "A" "abcd" 1500 pickFirst2).2 =
      Except.ok ⟨2500, "abcd"⟩) ∧
    ((get_state (buy_hint c2State 100 "A" "abcd" 1500 pickFirst2).1 100).2.pot
      = 1000) ∧
    ((findPlayer (get_state (buy_hint c2State 100 "A" "abcd" 1500 pickFirst2).1
        100).1 "A").map (fun p => p.money) = some 8500) := by decide

/-! ### C4 — all-in resolution and subsequent bids -/

theorem findPlayer_any {s : GameState} {pid : String} {p : Player}
    (h : findPlayer s pid = some p) :
    s.players.any (fun q => q.id = pid) = true := by
  unfold findPlayer at h
  have hmem := List.mem_of_find?_eq_some h
  have hp := List.find?_some h
  exact List.any_eq_true.mpr ⟨p, hmem, hp⟩

theorem _finish_bidding_phase (s : GameState) (now : Int)
    (h : s.phase = "bidding") : (_finish_bidding s now).phase = "answering" := by
  unfold _finish_bidding
  rw [if_neg (by simp [h])]
  split
  · rfl
  · dsimp only
    split <;> first | rfl | (split <;> rfl)

/-- `place_bid` called while the (caught-up) state is not in the bidding
phase: rejected with the invalid-phase error, state returned as the
catch-up left it. -/
theorem place_bid_nonbidding (s : GameState) (now : Int) (pid kind : String)
    (hmem : s.players.any (fun q => q.id = pid) = true)
    (hadv : _auto_advance_game_state s now = s)
    (hphase : s.phase ≠ "bidding") :
    place_bid s now pid kind = (s, Except.error invalidPhaseBidErr) := by
  simp only [place_bid, hmem, hadv]
  simp [hphase]

/-- C4 (counterexample): the claim also asserts that every subsequent
`place_bid` in the round "fails with the invalid-phase error without
mutating state".  The rejection is indeed the invalid-phase error, but
`place_bid` runs the catch-up before the phase check, and the catch-up
can mutate state.  Concretely: "A" goes all-in at time 100 (phase becomes
"answering"); at time 200 "B" (heartbeat 100, stale) calls `place_bid` —
the call is rejected with the invalid-phase error, yet the returned state
differs from the pre-call state ("B" was evicted, its bid dropped and the
pot recomputed from 2000 to 1500). -/
theorem c4_later_bid_can_mutate_state :
    ((place_bid (place_bid c4State 100 "A" "allin").1 200 "B" "normal").2 =
      Except.error invalidPhaseBidErr) ∧
    ((place_bid (place_bid c4State 100 "A" "allin").1 200 "B" "normal").1 ≠
      (place_bid c4State 100 "A" "allin").1) ∧
    ((place_bid (place_bid c4State 100 "A" "allin").1 200 "B" "normal").1.pot
      = 1500) := by decide

/-- C4 (amended): an all-in bid by a registered, non-observer player with
a positive balance, placed while the (caught-up) state is in the bidding
phase, moves the phase to "answering" within the same request; every
subsequent `place_bid` by a registered player is rejected with the
invalid-phase error, and the state is returned unchanged whenever the
catch-up step is a no-op on it (the catch-up itself — eviction, pot
recomputation — may still mutate state, as the counterexample shows). -/
theorem c4_allin_transitions_and_blocks (s : GameState) (now : Int)
    (pid : String) (p : Player)
    (hfind : findPlayer s pid = some p) (hobs : p.is_observer = false)
    (hmoney : 0 < p.money) (hphase : s.phase = "bidding")
    (hadv : _auto_advance_game_state s now = s) :
    (place_bid s now pid "allin").1.phase = "answering" ∧
    ∀ now2 pid2 kind2,
      (place_bid s now pid "allin").1.players.any (fun q => q.id = pid2) = true →
      _auto_advance_game_state (place_bid s now pid "allin").1 now2 =
        (place_bid s now pid "allin").1 →
      place_bid (place_bid s now pid "allin").1 now2 pid2 kind2 =
        ((place_bid s now pid "allin").1, Except.error invalidPhaseBidErr) := by
  have hmem := findPlayer_any hfind
  have hph : (place_bid s now pid "allin").1.phase = "answering" := by
    unfold place_bid
    rw [if_neg (by simp [hmem])]
    dsimp only
    rw [hadv]
    rw [if_neg (by simp [hphase])]
    rw [hfind]
    dsimp only
    rw [if_neg (by simp [hobs])]
    rw [if_neg (by decide)]
    rw [if_pos rfl]
    rw [if_neg (by omega)]
    dsimp only
    exact _finish_bidding_phase _ now (by simp [hphase, _recompute_pot])
  refine ⟨hph, fun now2 pid2 kind2 hmem2 hadv2 => ?_⟩
  exact place_bid_nonbidding _ now2 pid2 kind2 hmem2 hadv2 (by simp [hph])

theorem c4_allin_witness :
    (place_bid c4State 100 "A" "allin").1.phase = "answering" ∧
    place_bid (place_bid c4State 100 "A" "allin").1 100 "B" "normal" =
      ((place_bid c4State 100 "A" "allin").1, Except.error invalidPhaseBidErr) := by
  have h := c4_allin_transitions_and_blocks c4State 100 "A"
    ⟨"A", "Ala", 1000, true, false, 200⟩ (by decide) (by decide) (by decide)
    (by decide) (by decide)
  exact ⟨h.1, h.2 100 "B" "normal" (by decide) (by decide)⟩

/-! ### C3 — auction resolution: greatest amount, earliest timestamp -/

/-- `r` beats-or-ties `b` in the resolution order of `_finish_bidding`:
strictly more money, or the same money not later. -/
def bidGE (r b : BidInfo) : Prop :=
  b.amount < r.amount ∨ (b.amount = r.amount ∧ r.ts ≤ b.ts)

theorem bidGE_refl (b : BidInfo) : bidGE b b := Or.inr ⟨rfl, le_refl _⟩

theorem bidGE_trans {a b c : BidInfo} (h1 : bidGE a b) (h2 : bidGE b c) :
    bidGE a c := by
  rcases h1 with h1 | ⟨e1, t1⟩ <;> rcases h2 with h2 | ⟨e2, t2⟩
  · exact Or.inl (lt_trans h2 h1)
  · exact Or.inl (e2 ▸ h1)
  · exact Or.inl (e1 ▸ h2)
  · exact Or.inr ⟨e2.trans e1, t1.trans t2⟩

theorem betterBid_cases (best bid : BidInfo) :
    betterBid best bid = best ∨ betterBid best bid = bid := by
  unfold betterBid
  split
  · exact Or.inr rfl
  · split
    · exact Or.inr rfl
    · exact Or.inl rfl

theorem betterBid_ge_left (best bid : BidInfo) :
    bidGE (betterBid best bid) best := by
  unfold betterBid bidGE
  split
  · exact Or.inl ‹_›
  · split
    · rename_i h2
      exact Or.inr ⟨h2.1.symm, le_of_lt h2.2⟩
    · exact Or.inr ⟨rfl, le_refl _⟩

theorem betterBid_ge_right (best bid : BidInfo) :
    bidGE (betterBid best bid) bid := by
  unfold betterBid bidGE
  split
  · exact Or.inr ⟨rfl, le_refl _⟩
  · split
    · exact Or.inr ⟨rfl, le_refl _⟩
    · rename_i h1 h2
      have hle : bid.amount ≤ best.amount := not_lt.mp h1
      rcases eq_or_lt_of_le hle with he | hl
      · refine Or.inr ⟨he, ?_⟩
        by_contra hts
        exact h2 ⟨he, by omega⟩
      · exact Or.inl hl

theorem foldl_betterBid_spec (l : List BidInfo) (init : BidInfo) :
    (l.foldl betterBid init = init ∨ l.foldl betterBid init ∈ l) ∧
    bidGE (l.foldl betterBid init) init ∧
    ∀ b ∈ l, bidGE (l.foldl betterBid init) b := by
  induction l generalizing init with
  | nil =>
    exact ⟨Or.inl rfl, bidGE_refl init, fun b hb => absurd hb (List.not_mem_nil b)⟩
  | cons x xs ih =>
    simp only [List.foldl_cons]
    obtain ⟨ihmem, ihinit, ihall⟩ := ih (betterBid init x)
    refine ⟨?_, ?_, ?_⟩
    · rcases ihmem with h1 | h1
      · rcases betterBid_cases init x with h2 | h2
        · exact Or.inl (h1.trans h2)
        · exact Or.inr (by rw [h1, h2]; exact List.mem_cons_self x xs)
      · exact Or.inr (List.mem_cons_of_mem x h1)
    · exact bidGE_trans ihinit (betterBid_ge_left init x)
    · intro b hb
      rcases List.mem_cons.mp hb with rfl | hb
      · exact bidGE_trans ihinit (betterBid_ge_right init b)
      · exact ihall b hb

theorem _finish_bidding_answering (s : GameState) (now : Int)
    (hphase : s.phase = "bidding") {r : BidInfo}
    (hsel : selectBest s.bids = some r) (hne : s.bids ≠ []) :
    (_finish_bidding s now).answering_player_id = some r.player_id := by
  unfold _finish_bidding
  rw [if_neg (by simp [hphase]), if_neg hne]
  dsimp only
  rw [hsel]
  simp only [Option.getD_some]
  split <;> first | rfl | (split <;> rfl)

/-- C3: for every non-empty bid ledger, `_finish_bidding` resolves the
auction to a bid `r` of the ledger such that no bid has a strictly
greater amount, and every bid of equal amount has a timestamp no earlier
than `r`'s — i.e. the greatest amount wins and ties go to the strictly
earlier timestamp, whatever the order of the ledger. -/
theorem c3_resolution_max_amount_earliest_ts (s : GameState) (now : Int)
    (hphase : s.phase = "bidding") (hne : s.bids ≠ []) :
    ∃ r, r ∈ s.bids ∧ selectBest s.bids = some r ∧
      (_finish_bidding s now).answering_player_id = some r.player_id ∧
      ∀ b ∈ s.bids, b.amount ≤ r.amount ∧
        (b.amount = r.amount → r.ts ≤ b.ts) := by
  rcases hl : s.bids with _ | ⟨x, xs⟩
  · exact absurd hl hne
  · obtain ⟨hmem, hinit, hall⟩ := foldl_betterBid_spec xs x
    refine ⟨xs.foldl betterBid x, ?_, ?_, ?_, ?_⟩
    · rcases hmem with h1 | h1
      · rw [h1]; exact List.mem_cons_self x xs
      · exact List.mem_cons_of_mem x h1
    · rfl
    · exact _finish_bidding_answering s now hphase (by rw [hl]; rfl) hne
    · intro b hb
      have hge : bidGE (xs.foldl betterBid x) b := by
        rcases List.mem_cons.mp hb with rfl | hb2
        · exact hinit
        · exact hall b hb2
      rcases hge with h | ⟨he, ht⟩
      · exact ⟨le_of_lt h, fun he2 => absurd (he2 ▸ h) (lt_irrefl _)⟩
      · exact ⟨le_of_eq he, fun _ => ht⟩

/-- Bidding state with two equal 600 zł bids; "B" bid earlier (ts 3 < 5)
although it appears second in the ledger. -/
def c3State : GameState :=
  { players := [⟨"A", "Ala", 9000, true, false, 100⟩,
                ⟨"B", "Bob", 9000, false, false, 100⟩],
    bids := [⟨"A", 600, false, 5⟩, ⟨"B", 600, false, 3⟩],
    chat := [], round_id := 1, phase := "bidding", round_start_ts := 100,
    pot := 1200, answering_player_id := none,
    questions := [qYYY], current_set := some "01", current_q_index := 0,
    current_answer_text := none, current_answer_player_id := none,
    answer_submitted_ts := 0 }

theorem c3_resolution_witness :
    ((_finish_bidding c3State 100).answering_player_id = some "B") ∧
    ∃ r, r ∈ c3State.bids ∧ selectBest c3State.bids = some r ∧
      (_finish_bidding c3State 100).answering_player_id = some r.player_id ∧
      ∀ b ∈ c3State.bids, b.amount ≤ r.amount ∧
        (b.amount = r.amount → r.ts ≤ b.ts) :=
  ⟨by decide, c3_resolution_max_amount_earliest_ts c3State 100 (by decide) (by decide)⟩

/-! ### C5 — admin uniqueness under registrations and evictions -/

/-- The operations the claim quantifies over: `/register` calls (with the
fresh uuid passed explicitly) and inactivity sweeps. -/
inductive RegOp where
  | register (pid name : String) (now : Int)
  | evict (now : Int)
deriving Repr, DecidableEq

def applyOp (s : GameState) : RegOp → GameState
  | .register pid name now => (register_player s now pid name).1
  | .evict now => _cleanup_inactive_players s now

def applyOps (s : GameState) (ops : List RegOp) : GameState :=
  ops.foldl applyOp s

/-- Every registration in the sequence uses an id not already present at
the time it runs (`uuid.uuid4()` collisions never happen). -/
def opsFresh : GameState → List RegOp → Bool
  | _, [] => true
  | s, op :: rest =>
    (match op with
     | .register pid _ _ => s.players.all (fun p => p.id ≠ pid)
     | .evict _ => true) && opsFresh (applyOp s op) rest

def adminCount (ps : List Player) : Nat := ps.countP (fun p => p.is_admin)

/-- The claimed invariant: at most one admin, exactly one when anyone is
registered. -/
def AdminInv (s : GameState) : Prop :=
  adminCount s.players ≤ 1 ∧ (s.players ≠ [] → adminCount s.players = 1)

theorem countP_filter_le (p q : α → Bool) (l : List α) :
    (l.filter q).countP p ≤ l.countP p := by
  induction l with
  | nil => simp
  | cons x xs ih =>
    by_cases hq : q x <;> by_cases hp : p x <;>
      simp [List.filter_cons, List.countP_cons, hq, hp] <;> omega

theorem register_players_eq (s : GameState) (now : Int) (pid name : String)
    (hfresh : ∀ p ∈ s.players, p.id ≠ pid) :
    (register_player s now pid name).1.players =
      s.players ++ [⟨pid, name, 10000, s.players = [],
                     MAX_ACTIVE_PLAYERS ≤ s.players.length, now⟩] := by
  have hany : s.players.any (fun p => p.id = pid) = false := by
    rw [List.any_eq_false]
    intro p hp
    simpa using hfresh p hp
  unfold register_player
  dsimp only
  rw [hany]
  simp only [Bool.false_eq_true, if_false]
  split <;> rfl

theorem register_preserves_adminInv (s : GameState) (now : Int)
    (pid name : String) (hfresh : ∀ p ∈ s.players, p.id ≠ pid)
    (hinv : AdminInv s) :
    AdminInv (register_player s now pid name).1 := by
  obtain ⟨hle, hone⟩ := hinv
  rw [AdminInv, register_players_eq s now pid name hfresh]
  rcases hp : s.players with _ | ⟨x, xs⟩
  · constructor <;> simp [adminCount, List.countP_cons]
  · rw [← hp]
    have h1 : adminCount s.players = 1 := hone (by rw [hp]; exact List.cons_ne_nil x xs)
    have hnadm : decide (s.players = []) = false := by
      simp [hp]
    constructor
    · rw [adminCount, List.countP_append]
      simp [List.countP_cons, hnadm, adminCount] at *
      omega
    · intro _
      rw [adminCount, List.countP_append]
      simp [List.countP_cons, hnadm]
      simpa [adminCount] using h1

theorem promoteFirstAdmin_adminInv (s : GameState) (now : Int)
    (hle : adminCount s.players ≤ 1) :
    AdminInv (promoteFirstAdmin s now) := by
  unfold promoteFirstAdmin
  rcases hp : s.players with _ | ⟨x, xs⟩
  · dsimp only
    exact ⟨hle, fun h => absurd hp h⟩
  · dsimp only
    split
    · rename_i hadm
      refine ⟨hle, fun _ => ?_⟩
      have hpos : 0 < adminCount s.players := by
        rw [hp, adminCount]
        rcases List.any_eq_true.mp hadm with ⟨q, hq, hqadm⟩
        exact List.countP_pos_iff.mpr ⟨q, hq, hqadm⟩
      omega
    · rename_i hadm
      have hxs : xs.countP (fun p => p.is_admin) = 0 := by
        rw [List.countP_eq_zero]
        intro a ha
        have := List.any_eq_false.mp (Bool.eq_false_iff.mpr hadm) a
          (List.mem_cons_of_mem x ha)
        simpa using this
      constructor
      · simp [adminCount, List.countP_cons, hxs]
      · intro _
        simp [adminCount, List.countP_cons, hxs]

theorem cleanup_preserves_adminInv (s : GameState) (now : Int)
    (hinv : AdminInv s) :
    AdminInv (_cleanup_inactive_players s now) := by
  unfold _cleanup_inactive_players
  dsimp only
  apply promoteFirstAdmin_adminInv
  dsimp only [_recompute_pot]
  exact le_trans (countP_filter_le _ _ _) hinv.1

theorem adminInv_applyOps (ops : List RegOp) (s : GameState)
    (hinv : AdminInv s) (hfresh : opsFresh s ops = true) :
    AdminInv (applyOps s ops) := by
  induction ops generalizing s with
  | nil => exact hinv
  | cons op rest ih =>
    simp only [opsFresh, Bool.and_eq_true] at hfresh
    obtain ⟨h1, h2⟩ := hfresh
    simp only [applyOps, List.foldl_cons]
    refine ih (applyOp s op) ?_ h2
    cases op with
    | register pid name now =>
      refine register_preserves_adminInv s now pid name ?_ hinv
      intro p hp
      have := List.all_eq_true.mp h1 p hp
      simpa using this
    | evict now => exact cleanup_preserves_adminInv s now hinv

/-- C5: after any sequence of registrations (with fresh uuids) and
inactivity sweeps starting from the empty server, the registry holds at
most one admin, and exactly one whenever at least one player remains.
The first registrant becomes admin (`is_admin = len(PLAYERS) == 0`) and
the sweep promotes the first surviving player when no admin is left. -/
theorem c5_admin_unique (ops : List RegOp)
    (hfresh : opsFresh initialState ops = true) :
    adminCount (applyOps initialState ops).players ≤ 1 ∧
    ((applyOps initialState ops).players ≠ [] →
      adminCount (applyOps initialState ops).players = 1) :=
  adminInv_applyOps ops initialState ⟨by decide, fun h => absurd rfl h⟩ hfresh

theorem c5_admin_unique_witness :
    adminCount (applyOps initialState
      [.register "a" "Ala" 0, .register "b" "Bea" 5, .evict 62]).players ≤ 1 ∧
    ((applyOps initialState
      [.register "a" "Ala" 0, .register "b" "Bea" 5, .evict 62]).players ≠ [] →
      adminCount (applyOps initialState
        [.register "a" "Ala" 0, .register "b" "Bea" 5, .evict 62]).players = 1) :=
  c5_admin_unique [.register "a" "Ala" 0, .register "b" "Bea" 5, .evict 62]
    (by decide)

/-! ### C6 — eviction sweep -/

/-- C6 (counterexample): the claim says that when the resolved answering
player is evicted, the answering-player pointer becomes null in the next
snapshot.  `_cleanup_inactive_players` never touches
`ANSWERING_PLAYER_ID`: with answering player "A" stale (heartbeat 0,
timeout 60) at time 100, the next `get_state` no longer lists "A" and has
dropped "A"'s bid, yet still reports `answering_player_id = "A"`. -/
theorem c6_pointer_not_cleared :
    ((get_state c6State 100).2.players.all (fun p => p.id ≠ "A")) ∧
    ((get_state c6State 100).1.bids = []) ∧
    ((get_state c6State 100).2.answering_player_id = some "A") := by decide

theorem promoteFirstAdmin_players_ids (s : GameState) (now : Int) :
    ∀ q ∈ (promoteFirstAdmin s now).players, ∃ q0 ∈ s.players,
      q.id = q0.id ∧ q.last_heartbeat = q0.last_heartbeat := by
  unfold promoteFirstAdmin
  split
  · intro q hq
    exact ⟨q, hq, rfl, rfl⟩
  · rename_i x xs heq
    split
    · intro q hq
      exact ⟨q, hq, rfl, rfl⟩
    · intro q hq
      dsimp only at hq
      rcases List.mem_cons.mp hq with rfl | hq2
      · exact ⟨x, by rw [heq]; exact List.mem_cons_self x xs, rfl, rfl⟩
      · exact ⟨q, by rw [heq]; exact List.mem_cons_of_mem x hq2, rfl, rfl⟩

theorem promoteFirstAdmin_bids (s : GameState) (now : Int) :
    (promoteFirstAdmin s now).bids = s.bids := by
  unfold promoteFirstAdmin
  split
  · rfl
  · split <;> rfl

theorem promoteFirstAdmin_answering (s : GameState) (now : Int) :
    (promoteFirstAdmin s now).answering_player_id = s.answering_player_id := by
  unfold promoteFirstAdmin
  split
  · rfl
  · split <;> rfl

/-- C6 (amended): the sweep removes every player whose liveness age
exceeds the timeout together with their outstanding bid, but it leaves
the answering-player pointer unchanged — it keeps referencing the evicted
player instead of becoming null. -/
theorem c6_eviction_removes_player_and_bid (s : GameState) (now : Int)
    (pid : String)
    (hstale : ∀ q ∈ s.players, q.id = pid →
      HEARTBEAT_TIMEOUT < now - q.last_heartbeat)
    (hex : ∃ q ∈ s.players, q.id = pid) :
    (∀ q ∈ (_cleanup_inactive_players s now).players, q.id ≠ pid) ∧
    (∀ b ∈ (_cleanup_inactive_players s now).bids, b.player_id ≠ pid) ∧
    (_cleanup_inactive_players s now).answering_player_id =
      s.answering_player_id := by
  obtain ⟨w, hw, hwid⟩ := hex
  have hwstale := hstale w hw hwid
  refine ⟨?_, ?_, ?_⟩
  · intro q hq hqid
    unfold _cleanup_inactive_players at hq
    dsimp only at hq
    obtain ⟨q0, hq0mem, hq0id, _⟩ :=
      promoteFirstAdmin_players_ids _ now q hq
    simp only [_recompute_pot] at hq0mem
    obtain ⟨hq0s, hq0fresh⟩ := List.mem_filter.mp hq0mem
    have : HEARTBEAT_TIMEOUT < now - q0.last_heartbeat :=
      hstale q0 hq0s (by rw [← hq0id, hqid])
    simp only [decide_eq_true_eq] at hq0fresh
    exact hq0fresh this
  · intro b hb hbid
    unfold _cleanup_inactive_players at hb
    dsimp only at hb
    rw [promoteFirstAdmin_bids] at hb
    simp only [_recompute_pot] at hb
    obtain ⟨hbs, hbkeep⟩ := List.mem_filter.mp hb
    simp only [decide_eq_true_eq] at hbkeep
    refine hbkeep (List.any_eq_true.mpr ⟨w, ?_, by simp [hwid, hbid]⟩)
    exact List.mem_filter.mpr ⟨hw, by simpa using hwstale⟩
  · unfold _cleanup_inactive_players
    dsimp only
    rw [promoteFirstAdmin_answering]
    rfl

theorem c6_eviction_witness :
    (∀ q ∈ (_cleanup_inactive_players c6State 100).players, q.id ≠ "A") ∧
    (∀ b ∈ (_cleanup_inactive_players c6State 100).bids, b.player_id ≠ "A") ∧
    (_cleanup_inactive_players c6State 100).answering_player_id =
      c6State.answering_player_id :=
  c6_eviction_removes_player_and_bid c6State 100 "A" (by decide) (by decide)

/-! ### C7 — non-admin finish_bidding -/

/-- C7 (counterexample): the claim says a registered non-admin calling
`finish_bidding` "only records a pass event".  The handler rejects
non-admins with a 403 before the catch-up even runs and records nothing:
with non-admin "B" calling, the returned state is exactly the pre-call
state (in particular the chat/event log is unchanged — no "pass" event),
and the response is the Forbidden error. -/
theorem c7_no_pass_event :
    finish_bidding c7State 100 "B" =
      (c7State, Except.error ⟨403, "Tylko ADMIN może zakończyć licytację."⟩) := by
  decide

/-- C7 (amended): a registered non-admin calling `finish_bidding` is
rejected with a Forbidden (403) error; the call does not force
resolution, does not change the phase, and records no event — the state
is returned completely unchanged. -/
theorem c7_nonadmin_rejected (s : GameState) (now : Int) (pid : String)
    (p : Player) (hfind : findPlayer s pid = some p)
    (hadmin : p.is_admin = false) :
    finish_bidding s now pid =
      (s, Except.error ⟨403, "Tylko ADMIN może zakończyć licytację."⟩) := by
  unfold finish_bidding
  rw [hfind]
  dsimp only
  rw [if_pos (by simp [hadmin])]

theorem c7_nonadmin_witness :
    finish_bidding c7State 50 "B" =
      (c7State, Except.error ⟨403, "Tylko ADMIN może zakończyć licytację."⟩) :=
  c7_nonadmin_rejected c7State 50 "B" ⟨"B", "Bob", 9500, false, false, 100⟩
    (by decide) (by decide)

/-! ### C9 — repeated hint purchase -/

/-- C9 (counterexample): the claim says a second purchase of the same
hint kind within one round is rejected and leaves wallet and pot
unchanged.  `buy_hint` keeps no record of purchased hints: "A" buys
"abcd" for 1500 (ok, pot 1000 → 2500), then buys "abcd" again for 1200
(both are valid `randint(1000, 3000)` draws) — the second purchase also
succeeds, debiting the wallet to 7300 and raising the pot to 3700. -/
theorem c9_second_purchase_succeeds :
    ((buy_hint c9State 100 "A" "abcd" 1500 pickFirst2).2 =
      Except.ok ⟨2500, "abcd"⟩) ∧
    ((buy_hint (buy_hint c9State 100 "A" "abcd" 1500 pickFirst2).1
        101 "A" "abcd" 1200 pickFirst2).2 = Except.ok ⟨3700, "abcd"⟩) ∧
    ((findPlayer (buy_hint (buy_hint c9State 100 "A" "abcd" 1500 pickFirst2).1
        101 "A" "abcd" 1200 pickFirst2).1 "A").map (fun p => p.money) =
      some 7300) := by decide

/-- C9 (amended): `buy_hint` keeps no per-round record of purchased
hints, so a repeated purchase of the same kind is not rejected: whenever
the handler's actual guards hold (registered caller, answering/discussion
phase, caller is the answering player, a current question exists, known
kind, wallet covers the cost) the purchase succeeds, debits the wallet by
the fresh random cost and adds it to the pot — regardless of any earlier
purchase in the same round. -/
theorem c9_repeat_purchase_not_rejected (s : GameState) (now : Int)
    (pid kind : String) (p : Player) (cost : Int)
    (pick : List String → List String)
    (hfind : findPlayer s pid = some p)
    (hphase : s.phase = "answering" ∨ s.phase = "discussion")
    (hans : s.answering_player_id = some pid)
    (hq : 0 ≤ s.current_q_index ∧ s.current_q_index < (s.questions.length : Int))
    (hkind : kind = "abcd" ∨ kind = "5050")
    (hcost : cost ≤ p.money) :
    (buy_hint s now pid kind cost pick).2 = Except.ok ⟨s.pot + cost, kind⟩ ∧
    (buy_hint s now pid kind cost pick).1.pot = s.pot + cost ∧
    (buy_hint s now pid kind cost pick).1.players =
      s.players.map (fun q =>
        if q.id = pid then { q with money := q.money - cost } else q) := by
  have hmem := findPlayer_any hfind
  have hqe : s.questions ≠ [] := by
    intro h
    rw [h] at hq
    simp at hq
    omega
  unfold buy_hint
  rw [if_neg (by simp [hmem])]
  rw [if_neg (by rcases hphase with h | h <;> simp [h])]
  rw [if_neg (by simp [hans])]
  rw [if_neg (by push_neg; exact ⟨hqe, hq⟩)]
  rw [hfind]
  dsimp only
  rw [if_neg (by rcases hkind with h | h <;> simp [h])]
  rw [if_neg (by omega)]
  rcases hkind with h | h <;> rw [h] <;> simp

theorem c9_repeat_witness :
    ((buy_hint (buy_hint c9State 100 "A" "abcd" 1500 pickFirst2).1
        101 "A" "abcd" 1200 pickFirst2).2 =
      Except.ok ⟨(buy_hint c9State 100 "A" "abcd" 1500 pickFirst2).1.pot + 1200,
                 "abcd"⟩) ∧
    ((buy_hint (buy_hint c9State 100 "A" "abcd" 1500 pickFirst2).1
        101 "A" "abcd" 1200 pickFirst2).1.pot =
      (buy_hint c9State 100 "A" "abcd" 1500 pickFirst2).1.pot + 1200) ∧
    ((buy_hint (buy_hint c9State 100 "A" "abcd" 1500 pickFirst2).1
        101 "A" "abcd" 1200 pickFirst2).1.players =
      (buy_hint c9State 100 "A" "abcd" 1500 pickFirst2).1.players.map (fun q =>
        if q.id = "A" then { q with money := q.money - 1200 } else q)) :=
  c9_repeat_purchase_not_rejected
    (buy_hint c9State 100 "A" "abcd" 1500 pickFirst2).1 101 "A" "abcd"
    ⟨"A", "Ala", 8500, true, false, 100⟩ 1200 pickFirst2
    (by decide) (by decide) (by decide) (by decide) (by decide) (by decide)

/-! ### C10 — /next_round -/

/-- C10 (counterexample): the claim says `/next_round` always "advances
the question index, and either starts a new bidding round or ends the
game".  With no question set loaded it does neither: called on a
mid-discussion state it returns ok, clears the submitted answer, posts a
chat line and leaves the phase "discussion" and the index untouched —
the round is abandoned, but no new round starts and the game does not
end. -/
theorem c10_no_questions_no_advance :
    ((next_round c10State 100).1.phase = "discussion") ∧
    ((next_round c10State 100).1.current_q_index = -1) ∧
    ((next_round c10State 100).1.current_answer_text = none) ∧
    ((next_round c10State 100).2 = 3) := by decide

theorem foldl_entryFeeStep_fields (now : Int) (l : List Player)
    (st : GameState) :
    (l.foldl (entryFeeStep now) st).phase = st.phase ∧
    (l.foldl (entryFeeStep now) st).round_start_ts = st.round_start_ts ∧
    (l.foldl (entryFeeStep now) st).current_q_index = st.current_q_index ∧
    (l.foldl (entryFeeStep now) st).questions = st.questions ∧
    (l.foldl (entryFeeStep now) st).current_answer_text =
      st.current_answer_text ∧
    (l.foldl (entryFeeStep now) st).current_answer_player_id =
      st.current_answer_player_id ∧
    (l.foldl (entryFeeStep now) st).answer_submitted_ts =
      st.answer_submitted_ts ∧
    (l.foldl (entryFeeStep now) st).answering_player_id =
      st.answering_player_id := by
  induction l generalizing st with
  | nil => exact ⟨rfl, rfl, rfl, rfl, rfl, rfl, rfl, rfl⟩
  | cons x xs ih =>
    simp only [List.foldl_cons]
    exact ih (entryFeeStep now st x)

theorem end_game_no_more_fields (s : GameState) (now : Int) :
    (_end_game_no_more_questions s now).phase = "finished" ∧
    (_end_game_no_more_questions s now).current_q_index = s.current_q_index ∧
    (_end_game_no_more_questions s now).current_answer_text =
      s.current_answer_text ∧
    (_end_game_no_more_questions s now).current_answer_player_id =
      s.current_answer_player_id ∧
    (_end_game_no_more_questions s now).answer_submitted_ts =
      s.answer_submitted_ts ∧
    (_end_game_no_more_questions s now).answering_player_id =
      s.answering_player_id := by
  unfold _end_game_no_more_questions
  dsimp only
  split
  · exact ⟨rfl, rfl, rfl, rfl, rfl, rfl⟩
  · exact ⟨rfl, rfl, rfl, rfl, rfl, rfl⟩

theorem end_game_insufficient_fields (s : GameState) (now : Int) :
    (_end_game_insufficient_players s now).phase = "finished" ∧
    (_end_game_insufficient_players s now).current_q_index =
      s.current_q_index ∧
    (_end_game_insufficient_players s now).current_answer_text =
      s.current_answer_text ∧
    (_end_game_insufficient_players s now).current_answer_player_id =
      s.current_answer_player_id ∧
    (_end_game_insufficient_players s now).answer_submitted_ts =
      s.answer_submitted_ts ∧
    (_end_game_insufficient_players s now).answering_player_id =
      s.answering_player_id := by
  unfold _end_game_insufficient_players
  dsimp only
  split
  · exact ⟨rfl, rfl, rfl, rfl, rfl, rfl⟩
  · exact ⟨rfl, rfl, rfl, rfl, rfl, rfl⟩

theorem start_new_round_phase (s : GameState) (now : Int) :
    ((_start_new_bidding_round s now).phase = "bidding" ∧
     (_start_new_bidding_round s now).round_start_ts = now) ∨
    (_start_new_bidding_round s now).phase = "finished" := by
  unfold _start_new_bidding_round
  split
  · exact Or.inr (end_game_no_more_fields s now).1
  · dsimp only
    split
    · exact Or.inr (end_game_insufficient_fields s now).1
    · left
      have h := foldl_entryFeeStep_fields now
        (s.players.filter (fun p => !p.is_observer && decide (500 ≤ p.money)))
        { s with round_id := s.round_id + 1, phase := "bidding",
                 round_start_ts := now, bids := [] }
      exact ⟨h.1, h.2.1⟩

theorem start_new_round_answer_fields (s : GameState) (now : Int) :
    (_start_new_bidding_round s now).current_q_index = s.current_q_index ∧
    (_start_new_bidding_round s now).current_answer_text =
      s.current_answer_text ∧
    (_start_new_bidding_round s now).current_answer_player_id =
      s.current_answer_player_id ∧
    (_start_new_bidding_round s now).answer_submitted_ts =
      s.answer_submitted_ts := by
  unfold _start_new_bidding_round
  split
  · have h := end_game_no_more_fields s now
    exact ⟨h.2.1, h.2.2.1, h.2.2.2.1, h.2.2.2.2.1⟩
  · dsimp only
    split
    · have h := end_game_insufficient_fields s now
      exact ⟨h.2.1, h.2.2.1, h.2.2.2.1, h.2.2.2.2.1⟩
    · have h := foldl_entryFeeStep_fields now
        (s.players.filter (fun p => !p.is_observer && decide (500 ≤ p.money)))
        { s with round_id := s.round_id + 1, phase := "bidding",
                 round_start_ts := now, bids := [] }
      exact ⟨h.2.2.1, h.2.2.2.2.1, h.2.2.2.2.2.1, h.2.2.2.2.2.2.1⟩

/-- C10 (amended): `/next_round` takes no request body and checks no
phase and no caller: it always succeeds, clears the submitted-answer
state, and then (a) if no questions are loaded it only posts a chat
message, leaving phase and index untouched; (b) if the next index is past
the last question it ends the game ("finished") without advancing the
index; (c) otherwise it advances the index and starts a new bidding
round — which itself may end the game when fewer than two players can
pay the entry fee.  In every case the current round is abandoned with no
verdict and no payout. -/
theorem c10_next_round_behavior (s : GameState) (now : Int) :
    (next_round s now).1.current_answer_text = none ∧
    (next_round s now).1.current_answer_player_id = none ∧
    (next_round s now).1.answer_submitted_ts = 0 ∧
    (s.questions = [] →
      (next_round s now).1.phase = s.phase ∧
      (next_round s now).1.current_q_index = s.current_q_index) ∧
    (s.questions ≠ [] → (s.questions.length : Int) ≤ s.current_q_index + 1 →
      (next_round s now).1.phase = "finished" ∧
      (next_round s now).1.current_q_index = s.current_q_index) ∧
    (s.questions ≠ [] → s.current_q_index + 1 < (s.questions.length : Int) →
      (next_round s now).1.current_q_index = s.current_q_index + 1 ∧
      ((next_round s now).1.phase = "bidding" ∨
       (next_round s now).1.phase = "finished")) := by
  unfold next_round _start_next_question_or_end_game
  dsimp only
  split
  · rename_i hq
    exact ⟨rfl, rfl, rfl, fun _ => ⟨rfl, rfl⟩,
           fun hne _ => absurd hq hne, fun hne _ => absurd hq hne⟩
  · split
    · rename_i hq hlen
      have h := end_game_no_more_fields
        { s with current_answer_text := none, current_answer_player_id := none,
                 answer_submitted_ts := 0 } now
      refine ⟨h.2.2.1, h.2.2.2.1, h.2.2.2.2.1, fun he => absurd he hq,
              fun _ _ => ⟨h.1, h.2.1⟩, fun _ hlt => absurd hlt (not_lt.mpr hlen)⟩
    · rename_i hq hlen
      have h := start_new_round_answer_fields
        { s with current_answer_text := none, current_answer_player_id := none,
                 answer_submitted_ts := 0,
                 current_q_index := s.current_q_index + 1 } now
      have hph := start_new_round_phase
        { s with current_answer_text := none, current_answer_player_id := none,
                 answer_submitted_ts := 0,
                 current_q_index := s.current_q_index + 1 } now
      refine ⟨h.2.1, h.2.2.1, h.2.2.2, fun he => absurd he hq,
              fun _ hle => absurd hle hlen, fun _ _ => ⟨h.1, ?_⟩⟩
      rcases hph with ⟨hb, _⟩ | hf
      · exact Or.inl hb
      · exact Or.inr hf

theorem c10_next_round_witness :
    (next_round c10State 100).1.current_answer_text = none ∧
    (next_round c10State 100).1.phase = c10State.phase ∧
    (next_round c10State 100).1.current_q_index = c10State.current_q_index := by
  have h := c10_next_round_behavior c10State 100
  have h4 := h.2.2.2.1 (by decide)
  exact ⟨h.1, h4.1, h4.2⟩

/-! ### C8 — idempotence of the catch-up step -/

theorem promoteFirstAdmin_fields (s : GameState) (now : Int) :
    (promoteFirstAdmin s now).phase = s.phase ∧
    (promoteFirstAdmin s now).round_start_ts = s.round_start_ts ∧
    (promoteFirstAdmin s now).pot = s.pot ∧
    (promoteFirstAdmin s now).current_answer_text = s.current_answer_text ∧
    (promoteFirstAdmin s now).current_answer_player_id =
      s.current_answer_player_id ∧
    (promoteFirstAdmin s now).answer_submitted_ts = s.answer_submitted_ts ∧
    (promoteFirstAdmin s now).questions = s.questions ∧
    (promoteFirstAdmin s now).current_q_index = s.current_q_index := by
  unfold promoteFirstAdmin
  split
  · exact ⟨rfl, rfl, rfl, rfl, rfl, rfl, rfl, rfl⟩
  · split <;> exact ⟨rfl, rfl, rfl, rfl, rfl, rfl, rfl, rfl⟩

theorem cleanup_fields (s : GameState) (now : Int) :
    (_cleanup_inactive_players s now).phase = s.phase ∧
    (_cleanup_inactive_players s now).round_start_ts = s.round_start_ts ∧
    (_cleanup_inactive_players s now).current_answer_text =
      s.current_answer_text ∧
    (_cleanup_inactive_players s now).current_answer_player_id =
      s.current_answer_player_id ∧
    (_cleanup_inactive_players s now).answer_submitted_ts =
      s.answer_submitted_ts ∧
    (_cleanup_inactive_players s now).questions = s.questions ∧
    (_cleanup_inactive_players s now).current_q_index = s.current_q_index := by
  unfold _cleanup_inactive_players
  dsimp only
  exact ⟨(promoteFirstAdmin_fields _ now).1,
         (promoteFirstAdmin_fields _ now).2.1,
         (promoteFirstAdmin_fields _ now).2.2.2.1,
         (promoteFirstAdmin_fields _ now).2.2.2.2.1,
         (promoteFirstAdmin_fields _ now).2.2.2.2.2.1,
         (promoteFirstAdmin_fields _ now).2.2.2.2.2.2.1,
         (promoteFirstAdmin_fields _ now).2.2.2.2.2.2.2⟩

theorem cleanup_players_fresh (s : GameState) (now : Int) :
    ∀ q ∈ (_cleanup_inactive_players s now).players,
      ¬ HEARTBEAT_TIMEOUT < now - q.last_heartbeat := by
  intro q hq
  unfold _cleanup_inactive_players at hq
  dsimp only at hq
  obtain ⟨q0, hq0mem, _, hhb⟩ := promoteFirstAdmin_players_ids _ now q hq
  simp only [_recompute_pot] at hq0mem
  obtain ⟨_, hq0fresh⟩ := List.mem_filter.mp hq0mem
  simp only [decide_eq_true_eq] at hq0fresh
  rw [hhb]
  exact hq0fresh

theorem cleanup_pot (s : GameState) (now : Int) :
    (_cleanup_inactive_players s now).pot =
      ((_cleanup_inactive_players s now).bids.map (fun b => b.amount)).sum := by
  unfold _cleanup_inactive_players
  dsimp only
  rw [promoteFirstAdmin_bids, (promoteFirstAdmin_fields _ now).2.2.1]
  rfl

theorem promoteFirstAdmin_admin (s : GameState) (now : Int) :
    (promoteFirstAdmin s now).players = [] ∨
    (promoteFirstAdmin s now).players.any (fun q => q.is_admin) = true := by
  unfold promoteFirstAdmin
  split
  · rename_i heq
    exact Or.inl heq
  · rename_i x xs heq
    split
    · rename_i hadm
      exact Or.inr (by rw [heq]; exact hadm)
    · refine Or.inr ?_
      dsimp only
      rw [List.any_cons]
      simp

theorem cleanup_any_admin (s : GameState) (now : Int) :
    (_cleanup_inactive_players s now).players ≠ [] →
    (_cleanup_inactive_players s now).players.any (fun q => q.is_admin) = true := by
  intro h
  unfold _cleanup_inactive_players at h ⊢
  dsimp only at h ⊢
  rcases promoteFirstAdmin_admin _ now with h1 | h1
  · exact absurd h1 h
  · exact h1

theorem promoteFirstAdmin_noop (s : GameState) (now : Int)
    (h : s.players ≠ [] → s.players.any (fun q => q.is_admin) = true) :
    promoteFirstAdmin s now = s := by
  unfold promoteFirstAdmin
  split
  · rfl
  · rename_i x xs heq
    have hadm := h (by rw [heq]; exact List.cons_ne_nil x xs)
    rw [heq] at hadm
    rw [if_pos hadm]

theorem cleanup_noop (s : GameState) (now : Int)
    (hfresh : ∀ q ∈ s.players, ¬ HEARTBEAT_TIMEOUT < now - q.last_heartbeat)
    (hpot : s.pot = (s.bids.map (fun b => b.amount)).sum)
    (hadm : s.players ≠ [] → s.players.any (fun q => q.is_admin) = true) :
    _cleanup_inactive_players s now = s := by
  unfold _cleanup_inactive_players
  dsimp only
  have hrem : s.players.filter
      (fun p => decide (HEARTBEAT_TIMEOUT < now - p.last_heartbeat)) = [] := by
    rw [List.filter_eq_nil_iff]
    intro a ha
    simpa using hfresh a ha
  have hkept : s.players.filter
      (fun p => decide (¬ HEARTBEAT_TIMEOUT < now - p.last_heartbeat)) = s.players := by
    rw [List.filter_eq_self]
    intro a ha
    simpa using hfresh a ha
  rw [hrem, hkept]
  simp only [List.any_nil, List.map_nil, List.append_nil, Bool.false_eq_true,
    not_false_eq_true, decide_True, List.filter_true]
  have hrec : _recompute_pot
      { s with players := s.players, bids := s.bids, chat := s.chat } = s := by
    unfold _recompute_pot
    rw [← hpot]
  rw [hrec]
  exact promoteFirstAdmin_noop s now hadm

theorem auto_finish_noop_phase (s : GameState) (now : Int)
    (h : s.phase ≠ "bidding") :
    _auto_finish_bidding_if_needed s now = s := by
  unfold _auto_finish_bidding_if_needed
  rw [if_neg (by simp [h])]

theorem auto_finish_noop_time (s : GameState) (now : Int)
    (h : ¬ _time_left s now ≤ 0) :
    _auto_finish_bidding_if_needed s now = s := by
  unfold _auto_finish_bidding_if_needed
  rw [if_neg (fun hc => h hc.2)]

/-- Either the expiry check leaves the state alone (and, in the bidding
phase, only because time is left), or it has just resolved the auction
and the phase is "answering". -/
theorem auto_finish_cases (s : GameState) (now : Int) :
    (_auto_finish_bidding_if_needed s now = s ∧
     (s.phase = "bidding" → ¬ _time_left s now ≤ 0)) ∨
    (_auto_finish_bidding_if_needed s now).phase = "answering" := by
  unfold _auto_finish_bidding_if_needed
  split
  · rename_i h
    exact Or.inr (_finish_bidding_phase s now h.1)
  · rename_i h
    exact Or.inl ⟨rfl, fun hb hle => h ⟨hb, hle⟩⟩

theorem start_next_phase (s : GameState) (now : Int) :
    (_start_next_question_or_end_game s now).phase = s.phase ∨
    (_start_next_question_or_end_game s now).phase = "finished" ∨
    ((_start_next_question_or_end_game s now).phase = "bidding" ∧
     (_start_next_question_or_end_game s now).round_start_ts = now) := by
  unfold _start_next_question_or_end_game
  dsimp only
  split
  · exact Or.inl rfl
  · split
    · exact Or.inr (Or.inl (end_game_no_more_fields _ now).1)
    · rcases start_new_round_phase _ now with ⟨h1, h2⟩ | h1
      · exact Or.inr (Or.inr ⟨h1, h2⟩)
      · exact Or.inr (Or.inl h1)

theorem start_next_phase_ne (X : GameState) (now : Int) (hX : X.phase = "idle") :
    (_start_next_question_or_end_game X now).phase ≠ "discussion" ∧
    ((_start_next_question_or_end_game X now).phase = "bidding" →
     (_start_next_question_or_end_game X now).round_start_ts = now) := by
  rcases start_next_phase X now with h1 | h1 | ⟨h1, h2⟩
  · constructor
    · rw [h1, hX]
      decide
    · intro hb
      rw [h1, hX] at hb
      exact absurd hb (by decide)
  · constructor
    · rw [h1]
      decide
    · intro hb
      rw [h1] at hb
      exact absurd hb (by decide)
  · exact ⟨by rw [h1]; decide, fun _ => h2⟩

/-- Either a guard stops the discussion finalizer (and it is a no-op), or
it fires and the resulting phase is never "discussion" (and is "bidding"
only for a round freshly started at `now`). -/
theorem finalize_guard_or_phase (s : GameState) (now : Int) :
    ((s.phase ≠ "discussion" ∨
      (¬ truthyS s.current_answer_text ∨ ¬ truthyS s.current_answer_player_id) ∨
      now - s.answer_submitted_ts < 20) ∧
     _auto_finalize_discussion_if_needed s now = s) ∨
    ((_auto_finalize_discussion_if_needed s now).phase ≠ "discussion" ∧
     ((_auto_finalize_discussion_if_needed s now).phase = "bidding" →
      (_auto_finalize_discussion_if_needed s now).round_start_ts = now)) := by
  unfold _auto_finalize_discussion_if_needed
  split
  · rename_i h
    exact Or.inl ⟨Or.inl h, rfl⟩
  · split
    · rename_i h
      exact Or.inl ⟨Or.inr (Or.inl h), rfl⟩
    · split
      · rename_i h
        exact Or.inl ⟨Or.inr (Or.inr h), rfl⟩
      · exact Or.inr (start_next_phase_ne _ now rfl)

theorem finalize_noop_of_guard (s : GameState) (now : Int)
    (h : s.phase ≠ "discussion" ∨
      (¬ truthyS s.current_answer_text ∨ ¬ truthyS s.current_answer_player_id) ∨
      now - s.answer_submitted_ts < 20) :
    _auto_finalize_discussion_if_needed s now = s := by
  unfold _auto_finalize_discussion_if_needed
  by_cases h1 : s.phase ≠ "discussion"
  · rw [if_pos h1]
  · rw [if_neg h1]
    rcases h with h | h | h
    · exact absurd h h1
    · rw [if_pos h]
    · by_cases h2 : ¬ truthyS s.current_answer_text ∨
        ¬ truthyS s.current_answer_player_id
      · rw [if_pos h2]
      · rw [if_neg h2, if_pos h]

/-- C8: the lazy catch-up step (`_auto_finish_bidding_if_needed`, then
`_auto_finalize_discussion_if_needed`, then `_cleanup_inactive_players`)
is idempotent: running it twice at the same instant yields exactly the
state of running it once — for every state and every time. -/
theorem c8_catch_up_idempotent (s : GameState) (now : Int) :
    _auto_advance_game_state (_auto_advance_game_state s now) now =
      _auto_advance_game_state s now := by
  unfold _auto_advance_game_state
  set v := _auto_finish_bidding_if_needed s now with hv
  set u := _auto_finalize_discussion_if_needed v now with hu
  set t := _cleanup_inactive_players u now with htdef
  have htu_phase : t.phase = u.phase := by
    rw [htdef]; exact (cleanup_fields u now).1
  have htu_rst : t.round_start_ts = u.round_start_ts := by
    rw [htdef]; exact (cleanup_fields u now).2.1
  have htu_text : t.current_answer_text = u.current_answer_text := by
    rw [htdef]; exact (cleanup_fields u now).2.2.1
  have htu_pid : t.current_answer_player_id = u.current_answer_player_id := by
    rw [htdef]; exact (cleanup_fields u now).2.2.2.1
  have htu_ts : t.answer_submitted_ts = u.answer_submitted_ts := by
    rw [htdef]; exact (cleanup_fields u now).2.2.2.2.1
  have hAt : _auto_finish_bidding_if_needed t now = t := by
    by_cases hb : t.phase = "bidding"
    · apply auto_finish_noop_time
      have hub : u.phase = "bidding" := by rw [← htu_phase]; exact hb
      rcases finalize_guard_or_phase v now with ⟨hg, hnoop⟩ | ⟨hnd, hbid⟩
      · have huv : u = v := by rw [hu, hnoop]
        rcases auto_finish_cases s now with ⟨hnoopA, htime⟩ | hphA
        · have hvs : v = s := by rw [hv, hnoopA]
          have hsb : s.phase = "bidding" := by
            rw [← hvs, ← huv]; exact hub
          have htl := htime hsb
          unfold _time_left at htl ⊢
          rw [if_neg (by simp [hb])]
          rw [if_neg (by simp [hsb])] at htl
          rw [htu_rst, huv, hvs]
          exact htl
        · exfalso
          rw [huv, hv] at hub
          rw [hphA] at hub
          exact absurd hub (by decide)
      · have hrst := hbid hub
        unfold _time_left
        rw [if_neg (by simp [hb]), htu_rst, hrst]
        simp [BIDDING_DURATION]
    · exact auto_finish_noop_phase t now hb
  have hFt : _auto_finalize_discussion_if_needed t now = t := by
    by_cases hd : t.phase = "discussion"
    · have hud : u.phase = "discussion" := by rw [← htu_phase]; exact hd
      rcases finalize_guard_or_phase v now with ⟨hg, hnoop⟩ | ⟨hnd, _⟩
      · have huv : u = v := by rw [hu, hnoop]
        apply finalize_noop_of_guard
        rcases hg with hg | hg | hg
        · exact absurd (huv ▸ hud) hg
        · rcases hg with hg | hg
          · refine Or.inr (Or.inl (Or.inl ?_))
            rw [htu_text, huv]
            exact hg
          · refine Or.inr (Or.inl (Or.inr ?_))
            rw [htu_pid, huv]
            exact hg
        · refine Or.inr (Or.inr ?_)
          rw [htu_ts, huv]
          exact hg
      · exact absurd hud hnd
    · exact finalize_noop_of_guard t now (Or.inl hd)
  have hCt : _cleanup_inactive_players t now = t := by
    apply cleanup_noop
    · rw [htdef]
      exact cleanup_players_fresh u now
    · rw [htdef]
      exact cleanup_pot u now
    · rw [htdef]
      exact cleanup_any_admin u now
  rw [hAt, hFt]
  exact hCt
